import Mathlib

/-!
# Verification of Unscrobbler (src/Unscrobbler.py)

A shallow embedding of the deletion decision engine, the pagination /
deletion control loop, the CLI validation block, and the retry policies of
`Unscrobbler.py`, together with theorems settling the specification claims.

Conventions of the embedding:
* Python `int` values are `Int`; counters that start at 0 and only increment
  are `Nat`.
* Python `None`-able values are `Option _`; Python truthiness of an optional
  int (`if args.first_hr:`) is modelled by `truthyOptInt` (false on `none`
  and on `some 0`).
* Python `set` membership over strings is `List String` membership (exact
  string equality, like the source's `in` on a set of lines).
* The external Selenium driver is modelled as fixture data: each fresh scan
  of a page yields a list of sections, each a list of rows (records), and a
  run consumes a caller-supplied sequence of such page views.
-/

/-- A scanned record: track title, artist name, and the fields of its parsed
timestamp that the core reads (`parsed_timestamp.hour`, `.year`), plus the
original display string and the stringified parse used for the log entry. -/
structure Record where
  track_name : String
  artist_name : String
  hour : Int
  year : Int
  timestamp_string : String
  parsed_string : String
deriving Repr, DecidableEq

/-- The fields of `UnscrobblerConfig` the core loop reads (credentials, log
handles and page bounds are handled separately where a claim needs them). -/
structure UnscrobblerConfig where
  dry_run : Bool
  delete_artists : List String
  delete_titles : List String
  max_removals : Nat
  year : Option Int
  first_hr : Option Int
  last_hr : Option Int
deriving Repr, DecidableEq

/-- `should_delete` from `Unscrobbler.py` (lines 80-102): mark for deletion
when the artist is in `delete_artists` or the title is in `delete_titles`;
if marked and both hours are configured, re-derive the flag from the
hour-of-day cases (midnight-spanning, ordinary, equal bounds); if marked and
a year is configured, re-derive the flag from the year equality alone,
overwriting any hour result. -/
def should_delete (cfg : UnscrobblerConfig) (track_name artist_name : String)
    (hour year : Int) : Bool :=
  let delete0 := decide (artist_name ∈ cfg.delete_artists)
  let delete1 := delete0 || decide (track_name ∈ cfg.delete_titles)
  if delete1 then
    let use_hours := cfg.first_hr.isSome && cfg.last_hr.isSome
    let use_year := cfg.year.isSome
    let start_hour := cfg.first_hr.getD 0
    let stop_hour := cfg.last_hr.getD 0
    let afterHours :=
      if use_hours then
        if start_hour > stop_hour then
          -- spans midnight
          decide (hour ≥ start_hour) || decide (hour ≤ stop_hour)
        else if stop_hour > start_hour then
          decide (start_hour ≤ hour) && decide (hour ≤ stop_hour)
        else
          decide (hour = start_hour)
      else delete1
    if use_year then decide (year = cfg.year.getD 0) else afterHours
  else
    false

/-- Convenience: `should_delete` applied to a scanned record. -/
def shouldDeleteRec (cfg : UnscrobblerConfig) (r : Record) : Bool :=
  should_delete cfg r.track_name r.artist_name r.hour r.year

/-- C2, part of the proof: unfolding `should_delete` when the record matches
and a year is configured. -/
lemma should_delete_of_match_year (cfg : UnscrobblerConfig)
    (track artist : String) (hour yr y : Int)
    (hm : artist ∈ cfg.delete_artists ∨ track ∈ cfg.delete_titles)
    (hy : cfg.year = some y) :
    should_delete cfg track artist hour yr = decide (yr = y) := by
  unfold should_delete
  have h1 : (decide (artist ∈ cfg.delete_artists)
      || decide (track ∈ cfg.delete_titles)) = true := by
    rcases hm with h | h <;> simp [h]
  simp only [h1, if_true]
  simp [hy]

/-- C2, part of the proof: `should_delete` is false when neither the artist
nor the title matches, whatever the year / hour configuration. -/
lemma should_delete_of_no_match (cfg : UnscrobblerConfig)
    (track artist : String) (hour yr : Int)
    (ha : artist ∉ cfg.delete_artists) (ht : track ∉ cfg.delete_titles) :
    should_delete cfg track artist hour yr = false := by
  unfold should_delete
  simp [ha, ht]

/-- C2: for a record matching by artist or title, when both the hour range
and the year are configured, the final result of `should_delete` is exactly
the year equality check (the hour narrowing is overwritten); and when
neither artist nor title matches, the result is false regardless of the
year / hour configuration. -/
theorem C2_year_overrides_hours (cfg : UnscrobblerConfig)
    (track artist : String) (hour yr : Int) :
    ((artist ∈ cfg.delete_artists ∨ track ∈ cfg.delete_titles) →
      cfg.first_hr.isSome = true → cfg.last_hr.isSome = true →
      ∀ y, cfg.year = some y →
        should_delete cfg track artist hour yr = decide (yr = y))
    ∧ ((artist ∉ cfg.delete_artists ∧ track ∉ cfg.delete_titles) →
        should_delete cfg track artist hour yr = false) := by
  constructor
  · intro hm _ _ y hy
    exact should_delete_of_match_year cfg track artist hour yr y hm hy
  · intro ⟨ha, ht⟩
    exact should_delete_of_no_match cfg track artist hour yr ha ht

/-- C2 witness: concrete configuration with `artistSet = \x7b"A"\x7d`,
`hourRange = (22, 2)` (hour 23 would pass the hour check), `year = 2019`; a
matching record played at hour 23 of 2020 is decided by the year check alone
(false), and a non-matching record is kept. -/
theorem C2_year_overrides_hours_witness :
    should_delete ⟨false, ["A"], [], 100, some 2019, some 22, some 2⟩
      "T" "A" 23 2020 = decide ((2020 : Int) = 2019)
    ∧ should_delete ⟨false, ["A"], [], 100, some 2019, some 22, some 2⟩
      "T" "B" 23 2019 = false := by
  constructor
  · exact (C2_year_overrides_hours _ "T" "A" 23 2020).1
      (Or.inl (by decide)) (by decide) (by decide) 2019 rfl
  · exact (C2_year_overrides_hours _ "T" "B" 23 2019).2 (by decide)

/-- C5: for a record matching by artist or title, with the hour range
configured and no year configured, `should_delete` is true iff the record's
hour satisfies the three-case rule: spanning midnight (`start > end`):
`hour ≥ start ∨ hour ≤ end`; ordinary (`end > start`):
`start ≤ hour ≤ end`; equal bounds: `hour = start`. -/
theorem C5_hour_range_cases (cfg : UnscrobblerConfig)
    (track artist : String) (hour yr s e : Int)
    (hm : artist ∈ cfg.delete_artists ∨ track ∈ cfg.delete_titles)
    (hs : cfg.first_hr = some s) (he : cfg.last_hr = some e)
    (hy : cfg.year = none) :
    should_delete cfg track artist hour yr = true ↔
      (if s > e then hour ≥ s ∨ hour ≤ e
       else if e > s then s ≤ hour ∧ hour ≤ e
       else hour = s) := by
  unfold should_delete
  have h1 : (decide (artist ∈ cfg.delete_artists)
      || decide (track ∈ cfg.delete_titles)) = true := by
    rcases hm with h | h <;> simp [h]
  simp only [h1, if_true]
  simp only [hs, he, hy, Option.isSome_some, Option.isSome_none,
    Bool.and_self, Bool.and_false, if_true, Option.getD_some]
  split
  · next hfalse => exact absurd hfalse (by simp)
  · split
    · simp
    · split
      · simp
      · simp

/-- C5 witness: `hourRange = (22, 2)` spans midnight — a matching record at
hour 23 is deleted and one at hour 3 is kept. -/
theorem C5_hour_range_cases_witness :
    (should_delete ⟨false, ["A"], [], 100, none, some 22, some 2⟩
        "T" "A" 23 2020 = true
      ↔ (if (22 : Int) > 2 then (23 : Int) ≥ 22 ∨ (23 : Int) ≤ 2
         else if (2 : Int) > 22 then (22 : Int) ≤ 23 ∧ (23 : Int) ≤ 2
         else (23 : Int) = 22))
    ∧ should_delete ⟨false, ["A"], [], 100, none, some 22, some 2⟩
        "T" "A" 3 2020 = false := by
  constructor
  · exact C5_hour_range_cases _ "T" "A" 23 2020 22 2
      (Or.inl (by decide)) rfl rfl rfl
  · have h := C5_hour_range_cases
      ⟨false, ["A"], [], 100, none, some 22, some 2⟩ "T" "A" 3 2020 22 2
      (Or.inl (by decide)) rfl rfl rfl
    simp only [show ¬((22 : Int) > 2 → False) by decide, if_pos (by decide : (22:Int) > 2)] at h
    rcases hb : should_delete ⟨false, ["A"], [], 100, none, some 22, some 2⟩
        "T" "A" 3 2020 with _ | _
    · rfl
    · exact absurd (h.mp hb) (by decide)

/-! ## The deletion control loop (lines 159-227)

The driver is modelled as fixture data: a page view is the list of
`section.tracklist-section` elements, each holding the list of rows of its
`tbody`. The inner `while to_delete_exists(driver) and deletions < max`
loop consumes, per iteration, one fresh view of the current page (the view
the driver would render at that moment); the outer loop consumes one such
sequence of views per page. -/

/-- One fresh scan of a page: sections, each a list of rows. -/
abbrev PageView := List (List Record)

/-- A driver-call event observable by the external world, in order. -/
inductive Event where
  /-- `driver.find_elements(..."section.tracklist-section")` at the start of
  a deletion pass (line 168), carrying the number of sections found. -/
  | fetchSections (n : Nat)
  /-- `table_body.find_elements(...,"tr")` for one section (line 179),
  carrying the number of row handles fetched. -/
  | fetchRows (n : Nat)
  /-- the controller processes the deletion of one matching record (scroll,
  expand, delete clicks, log, counter). -/
  | deleteProc (track artist : String)
  /-- `driver.get(library_page_url)` at the end of a pass (line 227). -/
  | reload
deriving Repr, DecidableEq

/-- A mutating click that reaches the driver: the two clicks guarded by
`if not cfg.dry_run` (lines 207-213). -/
inductive DriverCall where
  | moreButtonClick (track artist : String)
  | deleteItemClick (track artist : String)
deriving Repr, DecidableEq

/-- A `DeletionLogEntry` as written by `_unscrobbler_log_deleted_item`
(lines 219-224). -/
structure LogEntry where
  track_title : String
  artist_name : String
  timestamp : String
  timestamp_parsed : String
deriving Repr, DecidableEq

/-- The log entry the controller writes for a deleted record. -/
def mkLogEntry (r : Record) : LogEntry :=
  ⟨r.track_name, r.artist_name, r.timestamp_string, r.parsed_string⟩

/-- The mutating driver calls one deletion issues: none on a dry run, the
two delete clicks otherwise. -/
def mutsOf (cfg : UnscrobblerConfig) (r : Record) : List DriverCall :=
  if cfg.dry_run then []
  else [DriverCall.moreButtonClick r.track_name r.artist_name,
        DriverCall.deleteItemClick r.track_name r.artist_name]

/-- The mutable state the control loop threads: the `deletions` counter, the
mutating calls issued so far, the deletion log, and the event trace. -/
structure RunState where
  deletions : Nat
  mutations : List DriverCall
  log : List LogEntry
  trace : List Event
deriving Repr, DecidableEq

/-- The state at the start of a run: `deletions = 0`, nothing issued. -/
def initState : RunState := ⟨0, [], [], []⟩

/-- Processing the deletion of one matching row (lines 198-225): the
mutating clicks (unless dry run), then the log entry, then the counter
increment, appended to the trace as one deletion-processing event. -/
def deleteStep (cfg : UnscrobblerConfig) (st : RunState) (r : Record) :
    RunState :=
  { deletions := st.deletions + 1,
    mutations := st.mutations ++ mutsOf cfg r,
    log := st.log ++ [mkLogEntry r],
    trace := st.trace ++ [Event.deleteProc r.track_name r.artist_name] }

/-- The row loop of one section (lines 179-225): before each row the budget
is checked (`if deletions >= cfg.max_removals: break`); a matching row has
its deletion processed and the loop continues with the remaining
pre-fetched row handles — there is no re-scan between rows. -/
def processRows (cfg : UnscrobblerConfig) : RunState → List Record → RunState
  | st, [] => st
  | st, r :: rs =>
    if st.deletions ≥ cfg.max_removals then st
    else if shouldDeleteRec cfg r then
      processRows cfg (deleteStep cfg st r) rs
    else processRows cfg st rs

/-- The section loop of one pass (lines 171-225): before each section the
budget is checked; the section's row handles are fetched, then its rows are
processed. -/
def processSections (cfg : UnscrobblerConfig) :
    RunState → List (List Record) → RunState
  | st, [] => st
  | st, sec :: secs =>
    if st.deletions ≥ cfg.max_removals then st
    else
      processSections cfg
        (processRows cfg { st with trace := st.trace ++ [Event.fetchRows sec.length] } sec)
        secs

/-- One iteration of the inner while loop (lines 165-227): fetch the
sections of the current view, process them, then reload the page. -/
def processPass (cfg : UnscrobblerConfig) (st : RunState) (view : PageView) :
    RunState :=
  let st1 := { st with trace := st.trace ++ [Event.fetchSections view.length] }
  let st2 := processSections cfg st1 view
  { st2 with trace := st2.trace ++ [Event.reload] }

/-- `to_delete_exists` (lines 105-133): scan the view and report whether any
row should be deleted. -/
def to_delete_exists (cfg : UnscrobblerConfig) (view : PageView) : Bool :=
  view.any fun sec => sec.any fun r => shouldDeleteRec cfg r

/-- The inner page loop (line 165): while the freshly scanned view contains
a match and budget remains, run one pass; consumes one fixture view per
iteration (a finite observation window of the driver). -/
def pageLoop (cfg : UnscrobblerConfig) : RunState → List PageView → RunState
  | st, [] => st
  | st, v :: vs =>
    if to_delete_exists cfg v && decide (st.deletions < cfg.max_removals) then
      pageLoop cfg (processPass cfg st v) vs
    else st

/-- The outer page loop (line 159): `while True and deletions < max`, one
page per iteration; each page contributes its fixture sequence of views. -/
def pagesRun (cfg : UnscrobblerConfig) :
    RunState → List (List PageView) → RunState
  | st, [] => st
  | st, p :: ps =>
    if st.deletions < cfg.max_removals then
      pagesRun cfg (pageLoop cfg st p) ps
    else st

/-- Number of deletion-processing events in a trace. -/
def deleteCount (t : List Event) : Nat :=
  t.countP fun e => match e with
    | Event.deleteProc _ _ => true
    | _ => false

@[simp] lemma deleteCount_nil : deleteCount [] = 0 := rfl

@[simp] lemma deleteCount_append (t u : List Event) :
    deleteCount (t ++ u) = deleteCount t + deleteCount u :=
  List.countP_append _ _ _

@[simp] lemma deleteCount_fetchSections (n : Nat) :
    deleteCount [Event.fetchSections n] = 0 := rfl

@[simp] lemma deleteCount_fetchRows (n : Nat) :
    deleteCount [Event.fetchRows n] = 0 := rfl

@[simp] lemma deleteCount_reload : deleteCount [Event.reload] = 0 := rfl

@[simp] lemma deleteCount_deleteProc (a b : String) :
    deleteCount [Event.deleteProc a b] = 1 := rfl

@[simp] lemma deleteStep_deletions (cfg : UnscrobblerConfig) (st : RunState)
    (r : Record) : (deleteStep cfg st r).deletions = st.deletions + 1 := rfl

@[simp] lemma deleteStep_trace (cfg : UnscrobblerConfig) (st : RunState)
    (r : Record) :
    (deleteStep cfg st r).trace
      = st.trace ++ [Event.deleteProc r.track_name r.artist_name] := rfl

@[simp] lemma deleteStep_log (cfg : UnscrobblerConfig) (st : RunState)
    (r : Record) : (deleteStep cfg st r).log = st.log ++ [mkLogEntry r] := rfl

@[simp] lemma deleteStep_mutations (cfg : UnscrobblerConfig) (st : RunState)
    (r : Record) :
    (deleteStep cfg st r).mutations = st.mutations ++ mutsOf cfg r := rfl

@[simp] lemma initState_deletions : initState.deletions = 0 := rfl

@[simp] lemma initState_trace : initState.trace = [] := rfl

@[simp] lemma initState_log : initState.log = [] := rfl

@[simp] lemma initState_mutations : initState.mutations = [] := rfl

@[simp] lemma runState_mk_deletions (a : Nat) (b : List DriverCall)
    (c : List LogEntry) (d : List Event) :
    (RunState.mk a b c d).deletions = a := rfl

@[simp] lemma runState_mk_log (a : Nat) (b : List DriverCall)
    (c : List LogEntry) (d : List Event) :
    (RunState.mk a b c d).log = c := rfl

@[simp] lemma runState_mk_trace (a : Nat) (b : List DriverCall)
    (c : List LogEntry) (d : List Event) :
    (RunState.mk a b c d).trace = d := rfl

lemma processRows_deletions_le (cfg : UnscrobblerConfig) (rs : List Record)
    (st : RunState) (h : st.deletions ≤ cfg.max_removals) :
    (processRows cfg st rs).deletions ≤ cfg.max_removals := by
  induction rs generalizing st with
  | nil => simpa [processRows] using h
  | cons r rs ih =>
    rw [processRows]
    split
    · exact h
    · split
      · exact ih _ (by simp only [deleteStep_deletions]; omega)
      · exact ih _ h

lemma processRows_count (cfg : UnscrobblerConfig) (rs : List Record)
    (st : RunState) :
    (processRows cfg st rs).deletions + deleteCount st.trace
      = st.deletions + deleteCount (processRows cfg st rs).trace := by
  induction rs generalizing st with
  | nil => simp [processRows]
  | cons r rs ih =>
    rw [processRows]
    split
    · rfl
    · split
      · have h2 := ih (deleteStep cfg st r)
        simp only [deleteStep_deletions, deleteStep_trace,
          deleteCount_append, deleteCount_deleteProc] at h2
        omega
      · exact ih st

lemma processSections_deletions_le (cfg : UnscrobblerConfig)
    (secs : List (List Record)) (st : RunState)
    (h : st.deletions ≤ cfg.max_removals) :
    (processSections cfg st secs).deletions ≤ cfg.max_removals := by
  induction secs generalizing st with
  | nil => simpa [processSections] using h
  | cons sec secs ih =>
    rw [processSections]
    split
    · exact h
    · exact ih _ (processRows_deletions_le cfg sec _ h)

lemma processSections_count (cfg : UnscrobblerConfig)
    (secs : List (List Record)) (st : RunState) :
    (processSections cfg st secs).deletions + deleteCount st.trace
      = st.deletions + deleteCount (processSections cfg st secs).trace := by
  induction secs generalizing st with
  | nil => simp [processSections]
  | cons sec secs ih =>
    rw [processSections]
    split
    · rfl
    · have h1 := processRows_count cfg sec
        { st with trace := st.trace ++ [Event.fetchRows sec.length] }
      have h2 := ih (processRows cfg
        { st with trace := st.trace ++ [Event.fetchRows sec.length] } sec)
      simp only [deleteCount_append, deleteCount_fetchRows] at h1 h2 ⊢
      omega

lemma processPass_deletions_le (cfg : UnscrobblerConfig) (v : PageView)
    (st : RunState) (h : st.deletions ≤ cfg.max_removals) :
    (processPass cfg st v).deletions ≤ cfg.max_removals := by
  unfold processPass
  exact processSections_deletions_le cfg v _ h

lemma processPass_count (cfg : UnscrobblerConfig) (v : PageView)
    (st : RunState) :
    (processPass cfg st v).deletions + deleteCount st.trace
      = st.deletions + deleteCount (processPass cfg st v).trace := by
  unfold processPass
  have h1 := processSections_count cfg v
    { st with trace := st.trace ++ [Event.fetchSections v.length] }
  simp only [deleteCount_append, deleteCount_fetchSections,
    deleteCount_reload] at h1 ⊢
  omega

lemma pageLoop_deletions_le (cfg : UnscrobblerConfig) (vs : List PageView)
    (st : RunState) (h : st.deletions ≤ cfg.max_removals) :
    (pageLoop cfg st vs).deletions ≤ cfg.max_removals := by
  induction vs generalizing st with
  | nil => simpa [pageLoop] using h
  | cons v vs ih =>
    rw [pageLoop]
    split
    · exact ih _ (processPass_deletions_le cfg v _ h)
    · exact h

lemma pageLoop_count (cfg : UnscrobblerConfig) (vs : List PageView)
    (st : RunState) :
    (pageLoop cfg st vs).deletions + deleteCount st.trace
      = st.deletions + deleteCount (pageLoop cfg st vs).trace := by
  induction vs generalizing st with
  | nil => simp [pageLoop]
  | cons v vs ih =>
    rw [pageLoop]
    split
    · have h1 := processPass_count cfg v st
      have h2 := ih (processPass cfg st v)
      omega
    · rfl

lemma pagesRun_deletions_le (cfg : UnscrobblerConfig)
    (ps : List (List PageView)) (st : RunState)
    (h : st.deletions ≤ cfg.max_removals) :
    (pagesRun cfg st ps).deletions ≤ cfg.max_removals := by
  induction ps generalizing st with
  | nil => simpa [pagesRun] using h
  | cons p ps ih =>
    rw [pagesRun]
    split
    · exact ih _ (pageLoop_deletions_le cfg p _ h)
    · exact h

lemma pagesRun_count (cfg : UnscrobblerConfig) (ps : List (List PageView))
    (st : RunState) :
    (pagesRun cfg st ps).deletions + deleteCount st.trace
      = st.deletions + deleteCount (pagesRun cfg st ps).trace := by
  induction ps generalizing st with
  | nil => simp [pagesRun]
  | cons p ps ih =>
    rw [pagesRun]
    split
    · have h1 := pageLoop_count cfg p st
      have h2 := ih (pageLoop cfg st p)
      omega
    · rfl

/-- C1: over any configuration and any fixture sequence of page views (any
number of pages, sections, and rows — hence also mid-page and mid-section
positions), the `deletions` counter of a run started at zero never exceeds
`max_removals`, and the run's trace contains exactly one
deletion-processing request per counter increment — so no deletion request
is issued once the budget is reached. -/
theorem C1_budget_invariant (cfg : UnscrobblerConfig)
    (ps : List (List PageView)) :
    (pagesRun cfg initState ps).deletions ≤ cfg.max_removals
    ∧ deleteCount (pagesRun cfg initState ps).trace
        = (pagesRun cfg initState ps).deletions := by
  constructor
  · exact pagesRun_deletions_le cfg ps initState (Nat.zero_le _)
  · have h := pagesRun_count cfg ps initState
    simp only [initState_trace, initState_deletions, deleteCount_nil] at h
    omega

/-! ## Dry-run equivalence (C4)

`dry_run` is read only inside the `if not cfg.dry_run` guard around the two
mutating clicks; the predicate, the budget checks, the log sink and the
counter do not depend on it. -/

lemma shouldDeleteRec_congr (cfg₁ cfg₂ : UnscrobblerConfig)
    (hart : cfg₁.delete_artists = cfg₂.delete_artists)
    (htit : cfg₁.delete_titles = cfg₂.delete_titles)
    (hyear : cfg₁.year = cfg₂.year) (hfh : cfg₁.first_hr = cfg₂.first_hr)
    (hlh : cfg₁.last_hr = cfg₂.last_hr) (r : Record) :
    shouldDeleteRec cfg₁ r = shouldDeleteRec cfg₂ r := by
  simp only [shouldDeleteRec, should_delete, hart, htit, hyear, hfh, hlh]

lemma to_delete_exists_congr (cfg₁ cfg₂ : UnscrobblerConfig)
    (hart : cfg₁.delete_artists = cfg₂.delete_artists)
    (htit : cfg₁.delete_titles = cfg₂.delete_titles)
    (hyear : cfg₁.year = cfg₂.year) (hfh : cfg₁.first_hr = cfg₂.first_hr)
    (hlh : cfg₁.last_hr = cfg₂.last_hr) (v : PageView) :
    to_delete_exists cfg₁ v = to_delete_exists cfg₂ v := by
  simp only [to_delete_exists,
    shouldDeleteRec_congr cfg₁ cfg₂ hart htit hyear hfh hlh]

lemma processRows_congr (cfg₁ cfg₂ : UnscrobblerConfig)
    (hart : cfg₁.delete_artists = cfg₂.delete_artists)
    (htit : cfg₁.delete_titles = cfg₂.delete_titles)
    (hyear : cfg₁.year = cfg₂.year) (hfh : cfg₁.first_hr = cfg₂.first_hr)
    (hlh : cfg₁.last_hr = cfg₂.last_hr)
    (hmax : cfg₁.max_removals = cfg₂.max_removals)
    (rs : List Record) (st su : RunState) (hd : st.deletions = su.deletions)
    (hl : st.log = su.log) (ht : st.trace = su.trace) :
    (processRows cfg₁ st rs).deletions = (processRows cfg₂ su rs).deletions
    ∧ (processRows cfg₁ st rs).log = (processRows cfg₂ su rs).log
    ∧ (processRows cfg₁ st rs).trace = (processRows cfg₂ su rs).trace := by
  induction rs generalizing st su with
  | nil => exact ⟨hd, hl, ht⟩
  | cons r rs ih =>
    simp only [processRows, hmax, hd,
      shouldDeleteRec_congr cfg₁ cfg₂ hart htit hyear hfh hlh]
    split
    · exact ⟨hd, hl, ht⟩
    · split
      · exact ih _ _ (by simp only [deleteStep_deletions, hd])
          (by simp only [deleteStep_log, hl])
          (by simp only [deleteStep_trace, ht])
      · exact ih _ _ hd hl ht

lemma processSections_congr (cfg₁ cfg₂ : UnscrobblerConfig)
    (hart : cfg₁.delete_artists = cfg₂.delete_artists)
    (htit : cfg₁.delete_titles = cfg₂.delete_titles)
    (hyear : cfg₁.year = cfg₂.year) (hfh : cfg₁.first_hr = cfg₂.first_hr)
    (hlh : cfg₁.last_hr = cfg₂.last_hr)
    (hmax : cfg₁.max_removals = cfg₂.max_removals)
    (secs : List (List Record)) (st su : RunState)
    (hd : st.deletions = su.deletions) (hl : st.log = su.log)
    (ht : st.trace = su.trace) :
    (processSections cfg₁ st secs).deletions
        = (processSections cfg₂ su secs).deletions
    ∧ (processSections cfg₁ st secs).log = (processSections cfg₂ su secs).log
    ∧ (processSections cfg₁ st secs).trace
        = (processSections cfg₂ su secs).trace := by
  induction secs generalizing st su with
  | nil => exact ⟨hd, hl, ht⟩
  | cons sec secs ih =>
    simp only [processSections, hmax, hd, hl, ht]
    split
    · exact ⟨hd, hl, ht⟩
    · obtain ⟨h1, h2, h3⟩ := processRows_congr cfg₁ cfg₂ hart htit hyear hfh
        hlh hmax sec
        (RunState.mk su.deletions st.mutations su.log
          (su.trace ++ [Event.fetchRows sec.length]))
        (RunState.mk su.deletions su.mutations su.log
          (su.trace ++ [Event.fetchRows sec.length]))
        rfl rfl rfl
      exact ih _ _ h1 h2 h3

lemma processPass_congr (cfg₁ cfg₂ : UnscrobblerConfig)
    (hart : cfg₁.delete_artists = cfg₂.delete_artists)
    (htit : cfg₁.delete_titles = cfg₂.delete_titles)
    (hyear : cfg₁.year = cfg₂.year) (hfh : cfg₁.first_hr = cfg₂.first_hr)
    (hlh : cfg₁.last_hr = cfg₂.last_hr)
    (hmax : cfg₁.max_removals = cfg₂.max_removals)
    (v : PageView) (st su : RunState) (hd : st.deletions = su.deletions)
    (hl : st.log = su.log) (ht : st.trace = su.trace) :
    (processPass cfg₁ st v).deletions = (processPass cfg₂ su v).deletions
    ∧ (processPass cfg₁ st v).log = (processPass cfg₂ su v).log
    ∧ (processPass cfg₁ st v).trace = (processPass cfg₂ su v).trace := by
  unfold processPass
  have hsecs := processSections_congr cfg₁ cfg₂ hart htit hyear hfh hlh hmax
    v { st with trace := st.trace ++ [Event.fetchSections v.length] }
    { su with trace := su.trace ++ [Event.fetchSections v.length] }
    hd hl (by simp only [ht])
  exact ⟨hsecs.1, hsecs.2.1, by simp only [hsecs.2.2]⟩

lemma pageLoop_congr (cfg₁ cfg₂ : UnscrobblerConfig)
    (hart : cfg₁.delete_artists = cfg₂.delete_artists)
    (htit : cfg₁.delete_titles = cfg₂.delete_titles)
    (hyear : cfg₁.year = cfg₂.year) (hfh : cfg₁.first_hr = cfg₂.first_hr)
    (hlh : cfg₁.last_hr = cfg₂.last_hr)
    (hmax : cfg₁.max_removals = cfg₂.max_removals)
    (vs : List PageView) (st su : RunState) (hd : st.deletions = su.deletions)
    (hl : st.log = su.log) (ht : st.trace = su.trace) :
    (pageLoop cfg₁ st vs).deletions = (pageLoop cfg₂ su vs).deletions
    ∧ (pageLoop cfg₁ st vs).log = (pageLoop cfg₂ su vs).log
    ∧ (pageLoop cfg₁ st vs).trace = (pageLoop cfg₂ su vs).trace := by
  induction vs generalizing st su with
  | nil => exact ⟨hd, hl, ht⟩
  | cons v vs ih =>
    simp only [pageLoop, hmax, hd,
      to_delete_exists_congr cfg₁ cfg₂ hart htit hyear hfh hlh]
    split
    · have hp := processPass_congr cfg₁ cfg₂ hart htit hyear hfh hlh hmax
        v st su hd hl ht
      exact ih _ _ hp.1 hp.2.1 hp.2.2
    · exact ⟨hd, hl, ht⟩

lemma pagesRun_congr (cfg₁ cfg₂ : UnscrobblerConfig)
    (hart : cfg₁.delete_artists = cfg₂.delete_artists)
    (htit : cfg₁.delete_titles = cfg₂.delete_titles)
    (hyear : cfg₁.year = cfg₂.year) (hfh : cfg₁.first_hr = cfg₂.first_hr)
    (hlh : cfg₁.last_hr = cfg₂.last_hr)
    (hmax : cfg₁.max_removals = cfg₂.max_removals)
    (ps : List (List PageView)) (st su : RunState)
    (hd : st.deletions = su.deletions) (hl : st.log = su.log)
    (ht : st.trace = su.trace) :
    (pagesRun cfg₁ st ps).deletions = (pagesRun cfg₂ su ps).deletions
    ∧ (pagesRun cfg₁ st ps).log = (pagesRun cfg₂ su ps).log
    ∧ (pagesRun cfg₁ st ps).trace = (pagesRun cfg₂ su ps).trace := by
  induction ps generalizing st su with
  | nil => exact ⟨hd, hl, ht⟩
  | cons p ps ih =>
    simp only [pagesRun, hmax, hd]
    split
    · have hp := pageLoop_congr cfg₁ cfg₂ hart htit hyear hfh hlh hmax
        p st su hd hl ht
      exact ih _ _ hp.1 hp.2.1 hp.2.2
    · exact ⟨hd, hl, ht⟩

lemma processRows_mutations_dry (cfg : UnscrobblerConfig)
    (hdry : cfg.dry_run = true) (rs : List Record) (st : RunState)
    (hm : st.mutations = []) :
    (processRows cfg st rs).mutations = [] := by
  induction rs generalizing st with
  | nil => simpa [processRows] using hm
  | cons r rs ih =>
    rw [processRows]
    split
    · exact hm
    · split
      · exact ih _ (by simp [deleteStep_mutations, hm, mutsOf, hdry])
      · exact ih _ hm

lemma processSections_mutations_dry (cfg : UnscrobblerConfig)
    (hdry : cfg.dry_run = true) (secs : List (List Record)) (st : RunState)
    (hm : st.mutations = []) :
    (processSections cfg st secs).mutations = [] := by
  induction secs generalizing st with
  | nil => simpa [processSections] using hm
  | cons sec secs ih =>
    rw [processSections]
    split
    · exact hm
    · exact ih _ (processRows_mutations_dry cfg hdry sec _ hm)

lemma pageLoop_mutations_dry (cfg : UnscrobblerConfig)
    (hdry : cfg.dry_run = true) (vs : List PageView) (st : RunState)
    (hm : st.mutations = []) :
    (pageLoop cfg st vs).mutations = [] := by
  induction vs generalizing st with
  | nil => simpa [pageLoop] using hm
  | cons v vs ih =>
    rw [pageLoop]
    split
    · exact ih _ (processSections_mutations_dry cfg hdry v _ hm)
    · exact hm

lemma pagesRun_mutations_dry (cfg : UnscrobblerConfig)
    (hdry : cfg.dry_run = true) (ps : List (List PageView)) (st : RunState)
    (hm : st.mutations = []) :
    (pagesRun cfg st ps).mutations = [] := by
  induction ps generalizing st with
  | nil => simpa [pagesRun] using hm
  | cons p ps ih =>
    rw [pagesRun]
    split
    · exact ih _ (pageLoop_mutations_dry cfg hdry p _ hm)
    · exact hm

/-- C4: over the same fixture data, a dry run issues zero mutating driver
calls, while its deletions counter, its deletion log (entries and order)
and its full event trace are identical to those of the non-dry-run pass. -/
theorem C4_dry_run_equivalence (cfg : UnscrobblerConfig)
    (ps : List (List PageView)) :
    (pagesRun { cfg with dry_run := true } initState ps).mutations = []
    ∧ (pagesRun { cfg with dry_run := true } initState ps).deletions
        = (pagesRun { cfg with dry_run := false } initState ps).deletions
    ∧ (pagesRun { cfg with dry_run := true } initState ps).log
        = (pagesRun { cfg with dry_run := false } initState ps).log
    ∧ (pagesRun { cfg with dry_run := true } initState ps).trace
        = (pagesRun { cfg with dry_run := false } initState ps).trace := by
  have h := pagesRun_congr { cfg with dry_run := true }
    { cfg with dry_run := false } rfl rfl rfl rfl rfl rfl ps initState
    initState rfl rfl rfl
  exact ⟨pagesRun_mutations_dry _ rfl ps initState rfl, h.1, h.2.1, h.2.2⟩

/-! ## Re-scan behaviour (C3)

The spec claims the controller re-scans the page after each confirmed
deletion. In the source, the row loop has no `break` after a deletion: it
continues through the remaining pre-fetched row handles and only reloads
the page (line 227) after the whole pass over all sections. -/

/-- Is this event a handle-refreshing driver read (a scan or a reload)? -/
def isFetchEvent : Event → Bool
  | Event.fetchSections _ => true
  | Event.fetchRows _ => true
  | Event.reload => true
  | Event.deleteProc _ _ => false

/-- Is this event the processing of one deletion? -/
def isDeleteEvent : Event → Bool
  | Event.deleteProc _ _ => true
  | _ => false

/-- The discipline the claim asserts, as a predicate on traces: every
deletion-processing event is preceded by some handle-refreshing driver read
issued after the previous deletion-processing event (the flag records
whether the handles are fresh). -/
def rescanBetweenDeletes : Bool → List Event → Bool
  | _, [] => true
  | fresh, e :: es =>
    if isDeleteEvent e then fresh && rescanBetweenDeletes false es
    else if isFetchEvent e then rescanBetweenDeletes true es
    else rescanBetweenDeletes fresh es

/-- Concrete fixture for C3: two records by artist `A` in one section. -/
def rec1 : Record := ⟨"T1", "A", 10, 2021, "ts1", "p1"⟩

/-- Second matching record of the C3 fixture. -/
def rec2 : Record := ⟨"T2", "A", 11, 2021, "ts2", "p2"⟩

/-- C3 fixture configuration: match on artist `A`, no narrowing filters,
budget 100, not a dry run. -/
def cfgC3 : UnscrobblerConfig := ⟨false, ["A"], [], 100, none, none, none⟩

/-- C3 fixture page: one section containing the two matching records. -/
def pageC3 : PageView := [[rec1, rec2]]

/-- C3 counterexample: on a page whose single section holds two matching
records, the run's trace shows both deletions processed back to back from
the same pre-fetched handles — no re-scan, no reload, no handle re-fetch
between them — so the claimed after-each-deletion re-scan discipline is
violated by the code. -/
theorem C3_counterexample :
    (pagesRun cfgC3 initState [[pageC3]]).trace
      = [Event.fetchSections 1, Event.fetchRows 2,
         Event.deleteProc "T1" "A", Event.deleteProc "T2" "A", Event.reload]
    ∧ rescanBetweenDeletes true (pagesRun cfgC3 initState [[pageC3]]).trace
        = false := by
  constructor
  · rfl
  · rfl

/-- The records of a row list the predicate marks for deletion, in scan
order. -/
def matchingRows (cfg : UnscrobblerConfig) (rs : List Record) : List Record :=
  rs.filter (shouldDeleteRec cfg)

/-- Number of matching records on a whole page view. -/
def pageMatches (cfg : UnscrobblerConfig) (view : PageView) : Nat :=
  (view.map fun sec => (matchingRows cfg sec).length).sum

/-- The events one section contributes to a pass: its row-handle fetch,
then one deletion-processing event per matching record, in scan order. -/
def sectionTrace (cfg : UnscrobblerConfig) (sec : List Record) : List Event :=
  Event.fetchRows sec.length ::
    (matchingRows cfg sec).map fun r =>
      Event.deleteProc r.track_name r.artist_name

/-- The full event trace of one pass over a page view. -/
def passTrace (cfg : UnscrobblerConfig) (view : PageView) : List Event :=
  Event.fetchSections view.length ::
    ((view.map (sectionTrace cfg)).flatten ++ [Event.reload])

lemma processRows_full (cfg : UnscrobblerConfig) (rs : List Record)
    (st : RunState)
    (h : st.deletions + (matchingRows cfg rs).length ≤ cfg.max_removals) :
    (processRows cfg st rs).deletions
        = st.deletions + (matchingRows cfg rs).length
    ∧ (processRows cfg st rs).log
        = st.log ++ (matchingRows cfg rs).map mkLogEntry
    ∧ (processRows cfg st rs).trace
        = st.trace ++ (matchingRows cfg rs).map fun r =>
            Event.deleteProc r.track_name r.artist_name := by
  induction rs generalizing st with
  | nil => simp [processRows, matchingRows]
  | cons r rs ih =>
    rw [processRows]
    by_cases hsd : shouldDeleteRec cfg r = true
    · have hm : matchingRows cfg (r :: rs) = r :: matchingRows cfg rs := by
        simp [matchingRows, List.filter_cons, hsd]
      rw [hm] at h ⊢
      simp only [List.length_cons] at h ⊢
      have hguard : ¬st.deletions ≥ cfg.max_removals := by omega
      rw [if_neg hguard, if_pos hsd]
      obtain ⟨d1, l1, t1⟩ := ih (deleteStep cfg st r)
        (by simp only [deleteStep_deletions]; omega)
      refine ⟨?_, ?_, ?_⟩
      · rw [d1]; simp only [deleteStep_deletions]; omega
      · rw [l1]; simp [List.append_assoc]
      · rw [t1]; simp [List.append_assoc]
    · have hm : matchingRows cfg (r :: rs) = matchingRows cfg rs := by
        simp [matchingRows, List.filter_cons, hsd]
      rw [hm] at h ⊢
      by_cases hguard : st.deletions ≥ cfg.max_removals
      · have hlen : (matchingRows cfg rs).length = 0 := by omega
        have hnil : matchingRows cfg rs = [] := List.length_eq_zero.mp hlen
        rw [if_pos hguard, hnil]
        simp
      · rw [if_neg hguard, if_neg (by simpa using hsd)]
        exact ih st h

lemma processSections_full (cfg : UnscrobblerConfig)
    (secs : List (List Record)) (st : RunState)
    (h : st.deletions + pageMatches cfg secs < cfg.max_removals) :
    (processSections cfg st secs).deletions
        = st.deletions + pageMatches cfg secs
    ∧ (processSections cfg st secs).log
        = st.log
            ++ (secs.map fun sec => (matchingRows cfg sec).map mkLogEntry).flatten
    ∧ (processSections cfg st secs).trace
        = st.trace ++ (secs.map (sectionTrace cfg)).flatten := by
  induction secs generalizing st with
  | nil => simp [processSections, pageMatches]
  | cons sec secs ih =>
    rw [processSections]
    simp only [pageMatches, List.map_cons, List.sum_cons] at h ⊢
    have hguard : ¬st.deletions ≥ cfg.max_removals := by omega
    rw [if_neg hguard]
    obtain ⟨d1, l1, t1⟩ := processRows_full cfg sec
      (RunState.mk st.deletions st.mutations st.log
        (st.trace ++ [Event.fetchRows sec.length]))
      (by simp only [runState_mk_deletions]; omega)
    obtain ⟨d2, l2, t2⟩ := ih
      (processRows cfg
        (RunState.mk st.deletions st.mutations st.log
          (st.trace ++ [Event.fetchRows sec.length])) sec)
      (by simp only [pageMatches]; rw [d1]; simp only [runState_mk_deletions]; omega)
    refine ⟨?_, ?_, ?_⟩
    · rw [d2, d1]; simp only [pageMatches, runState_mk_deletions]; omega
    · rw [l2, l1]; simp [List.append_assoc]
    · rw [t2, t1]; simp [sectionTrace, List.append_assoc]

lemma processPass_full (cfg : UnscrobblerConfig) (view : PageView)
    (st : RunState)
    (h : st.deletions + pageMatches cfg view < cfg.max_removals) :
    (processPass cfg st view).deletions = st.deletions + pageMatches cfg view
    ∧ (processPass cfg st view).log
        = st.log
            ++ (view.map fun sec => (matchingRows cfg sec).map mkLogEntry).flatten
    ∧ (processPass cfg st view).trace = st.trace ++ passTrace cfg view := by
  unfold processPass
  obtain ⟨d1, l1, t1⟩ := processSections_full cfg view
    (RunState.mk st.deletions st.mutations st.log
      (st.trace ++ [Event.fetchSections view.length])) h
  refine ⟨d1, l1, ?_⟩
  simp only [t1, passTrace]
  simp [List.append_assoc]

/-- C3 amended: the controller re-fetches handles only per pass, not per
deletion — in one pass over a page (budget permitting) it fetches the
section handles once, fetches each section's row handles once, processes
the deletion of every matching record of that pre-fetched scan in scan
order with no intervening re-scan, and reloads the page only after the
pass; the deletion log records exactly those records in scan order. -/
theorem C3_amended_rescan_per_pass (cfg : UnscrobblerConfig) (view : PageView)
    (st : RunState)
    (h : st.deletions + pageMatches cfg view < cfg.max_removals) :
    (processPass cfg st view).trace = st.trace ++ passTrace cfg view
    ∧ (processPass cfg st view).log
        = st.log
            ++ (view.map fun sec => (matchingRows cfg sec).map mkLogEntry).flatten
    ∧ (processPass cfg st view).deletions
        = st.deletions + pageMatches cfg view := by
  obtain ⟨d1, l1, t1⟩ := processPass_full cfg view st h
  exact ⟨t1, l1, d1⟩

/-- C3 amended, witness: the two-matching-record fixture of the
counterexample, evaluated concretely. -/
theorem C3_amended_rescan_per_pass_witness :
    (processPass cfgC3 initState pageC3).trace
        = initState.trace ++ passTrace cfgC3 pageC3
    ∧ (processPass cfgC3 initState pageC3).log
        = initState.log
            ++ (pageC3.map fun sec =>
                  (matchingRows cfgC3 sec).map mkLogEntry).flatten
    ∧ (processPass cfgC3 initState pageC3).deletions
        = initState.deletions + pageMatches cfgC3 pageC3 :=
  C3_amended_rescan_per_pass cfgC3 pageC3 initState (by decide)

/-! ## CLI validation (lines 284-300)

Python truthiness drives these checks: `if args.first_hr:` is false both
for `None` and for the integer `0`, and `if not args.artists_file:` is true
both for `None` and for the empty string. -/

/-- Python truthiness of an optional int (`None` and `0` are falsy). -/
def truthyOptInt : Option Int → Bool
  | none => false
  | some v => decide (v ≠ 0)

/-- Python truthiness of an optional string (`None` and `""` are falsy). -/
def truthyOptStr : Option String → Bool
  | none => false
  | some s => decide (s ≠ "")

/-- The parsed argparse namespace fields the validation block reads. -/
structure Args where
  artists_file : Option String
  titles_file : Option String
  year : Option Int
  start_page : Int
  max_page : Int
  first_hr : Option Int
  last_hr : Option Int
  log_dir : Option String
  max_removals : Int
deriving Repr, DecidableEq

/-- Outcome of the validation block: which `eprint` + `sys.exit(EXIT_ERROR)`
branch fires first, or fall-through towards running the core. -/
inductive CliOutcome where
  | exitFilesError
  | exitYearError
  | exitHoursTogetherError
  | exitHoursRangeError
  | exitMaxRemovalsError
  | runCore
deriving Repr, DecidableEq

/-- The validation chain of `__main__` (lines 284-300), in source order:
missing both list files; out-of-range `--year` (only when supplied);
`--first-hr`/`--last-hr` not used together (by truthiness); hour values out
of 0-23 (guarded by truthiness); non-positive `--max-removals`. Each failing
check prints one line to stderr and exits non-zero before `unscrobbler` is
called. -/
def validate (a : Args) : CliOutcome :=
  if !truthyOptStr a.artists_file && !truthyOptStr a.titles_file then
    CliOutcome.exitFilesError
  else if (match a.year with
           | some y => decide (y < 1970) || decide (y > 2999)
           | none => false) then
    CliOutcome.exitYearError
  else if (truthyOptInt a.first_hr && !truthyOptInt a.last_hr)
      || (truthyOptInt a.last_hr && !truthyOptInt a.first_hr) then
    CliOutcome.exitHoursTogetherError
  else if (truthyOptInt a.first_hr
        && (decide (a.first_hr.getD 0 < 0) || decide (a.first_hr.getD 0 > 23)))
      || (truthyOptInt a.last_hr
        && (decide (a.last_hr.getD 0 < 0) || decide (a.last_hr.getD 0 > 23))) then
    CliOutcome.exitHoursRangeError
  else if decide (a.max_removals ≤ 0) then
    CliOutcome.exitMaxRemovalsError
  else
    CliOutcome.runCore

/-- The checks after the year check can never produce the year error. -/
lemma rest_ne_yearError : ∀ (c3 c4 c5 : Bool),
    (if c3 then CliOutcome.exitHoursTogetherError
     else if c4 then CliOutcome.exitHoursRangeError
     else if c5 then CliOutcome.exitMaxRemovalsError
     else CliOutcome.runCore) ≠ CliOutcome.exitYearError := by
  decide

/-- C10: when a `--year` value is supplied (and at least one list file is
given, so the year check is reached), validation stops with the year error
exactly when the year is below 1970 or above 2999; every year in 1970-2999
passes this check. -/
theorem C10_year_range_validation (a : Args) (y : Int) (hy : a.year = some y)
    (hfiles : (truthyOptStr a.artists_file || truthyOptStr a.titles_file)
        = true) :
    validate a = CliOutcome.exitYearError ↔ (y < 1970 ∨ y > 2999) := by
  unfold validate
  have h1 : (!truthyOptStr a.artists_file && !truthyOptStr a.titles_file)
      = false := by
    cases hA : truthyOptStr a.artists_file <;>
      cases hB : truthyOptStr a.titles_file <;> simp_all
  rw [h1]
  simp only [Bool.false_eq_true, if_false, hy]
  by_cases hyr : y < 1970 ∨ y > 2999
  · have hc : (decide (y < 1970) || decide (y > 2999)) = true := by
      rcases hyr with h | h <;> simp [h]
    rw [hc]
    simpa using hyr
  · have hc : (decide (y < 1970) || decide (y > 2999)) = false := by
      have hn1 : ¬y < 1970 := fun h => hyr (Or.inl h)
      have hn2 : ¬y > 2999 := fun h => hyr (Or.inr h)
      simp [hn1, hn2]
    rw [hc]
    simp only [Bool.false_eq_true, if_false]
    exact ⟨fun h => absurd h (rest_ne_yearError _ _ _), fun h => absurd h hyr⟩

/-- C10 witness: `--year 1950` with an artists file exits with the year
error; `--year 1985` does not. -/
theorem C10_year_range_validation_witness :
    validate ⟨some "artists.txt", none, some 1950, 1, 20, none, none,
        none, 100⟩ = CliOutcome.exitYearError
    ∧ validate ⟨some "artists.txt", none, some 1985, 1, 20, none, none,
        none, 100⟩ ≠ CliOutcome.exitYearError := by
  constructor
  · exact (C10_year_range_validation _ 1950 rfl (by decide)).mpr
      (Or.inl (by decide))
  · intro h
    exact absurd ((C10_year_range_validation _ 1985 rfl (by decide)).mp h)
      (by decide)

/-- `--first-hr 0 --last-hr 5` with an artists file: both hour flags
supplied, both in 0-23. -/
def argsHrZeroPair : Args :=
  ⟨some "artists.txt", none, none, 1, 20, some 0, some 5, none, 100⟩

/-- `--first-hr 0` alone with an artists file: only one hour flag. -/
def argsHrZeroAlone : Args :=
  ⟨some "artists.txt", none, none, 1, 20, some 0, none, none, 100⟩

/-- C7 (code bug): the together-check uses Python truthiness instead of
`is not None`, so the in-range pair `--first-hr 0 --last-hr 5` is rejected
with the must-be-used-together error, while `--first-hr 0` supplied alone
passes validation and the core runs (with the hour filter silently
inactive). This contradicts the claim (and the argparse help text, which
documents 0-23 as valid and requires the flags only to be supplied
together). -/
theorem C7_hour_truthiness_bug :
    validate argsHrZeroPair = CliOutcome.exitHoursTogetherError
    ∧ validate argsHrZeroPair ≠ CliOutcome.runCore
    ∧ validate argsHrZeroAlone = CliOutcome.runCore := by
  decide

/-! ## Page advancement (lines 229-239)

`try: next_button = driver.find_element(...)` either rebinds `next_button`
to the fresh next-page link or, on `NoSuchElementException`, merely logs
"Finished last page! Exiting." — with no `break`, so `next_button` keeps
whatever binding it had from an earlier iteration (or none at all). Then
the `max_page` bound is checked (truthily), and otherwise the loop
navigates `next_button.get_attribute("href")`. -/

/-- Outcome of one page-advance step. -/
inductive AdvanceOutcome where
  /-- `break` out of the outer loop: summary logged, `EXIT_SUCCESS`. -/
  | done
  /-- `driver.get` on the bound next-button's href, page number bumped. -/
  | navigate (href : String)
  /-- `next_button` was never bound: `UnboundLocalError` — the run aborts
  with an unhandled exception, not a success exit. -/
  | crash
deriving Repr, DecidableEq

/-- The advance block: `nextHref` is the fresh next-page link if one exists
on the current page; `next_button` is the binding left over from earlier
iterations (none at the first advance). -/
def advance (max_page : Option Int) (library_page_num : Int)
    (nextHref : Option String) (next_button : Option String) :
    AdvanceOutcome :=
  let bound := match nextHref with
    | some h => some h
    | none => next_button
  if truthyOptInt max_page && decide (library_page_num ≥ max_page.getD 0) then
    AdvanceOutcome.done
  else
    match bound with
    | some h => AdvanceOutcome.navigate h
    | none => AdvanceOutcome.crash

/-- C6 (code bug): with the default `max_page = 20`, a first page that has
no next-page affordance does not transition to Done — the missing `break`
after the "Finished last page! Exiting." log leaves `next_button` unbound
and the code crashes with `UnboundLocalError`; on a later page it silently
re-navigates the stale previous next-button instead. Done is reached only
through the `max_page` bound. -/
theorem C6_missing_break_after_last_page :
    advance (some 20) 1 none none = AdvanceOutcome.crash
    ∧ advance (some 20) 1 none none ≠ AdvanceOutcome.done
    ∧ advance (some 20) 3 none (some "stalePage3Href")
        = AdvanceOutcome.navigate "stalePage3Href"
    ∧ advance (some 20) 20 none none = AdvanceOutcome.done := by
  decide

/-! ## Retry policies (lines 144-157 and 205-217)

The login-submit click (lines 144-157) is the one capped retry: the counter
`submit_attempts` is incremented at each loop entry; on failure, once it
reaches 12 the function returns `EXIT_ERROR`. The per-record delete clicks
(lines 205-217) sit in a bare `while True: try ... except: log` loop with
no counter and no exit path other than success.

Attempt outcomes are modelled by a function `outcome : Nat → Bool` giving
the success of the k-th attempt (attempts numbered from 1). The capped
loop terminates within 12 iterations, so fuel 12 is exact; the uncapped
loop is observed through an arbitrary finite window of attempts. -/

/-- Result of the login-submit retry loop. -/
inductive SubmitResult where
  | success (attempts : Nat)
  | exitError
deriving Repr, DecidableEq

/-- The submit loop body (lines 145-157): bump `submit_attempts`, try the
click; on success break; on failure return `EXIT_ERROR` once
`submit_attempts >= 12`, else pause and retry. -/
def submitGo (outcome : Nat → Bool) (submit_attempts : Nat) :
    Nat → SubmitResult
  | 0 => SubmitResult.exitError
  | fuel + 1 =>
    if outcome (submit_attempts + 1) then
      SubmitResult.success (submit_attempts + 1)
    else if submit_attempts + 1 ≥ 12 then SubmitResult.exitError
    else submitGo outcome (submit_attempts + 1) fuel

/-- The whole submit-retry loop, entered with `submit_attempts = 0`. -/
def submitLoop (outcome : Nat → Bool) : SubmitResult :=
  submitGo outcome 0 12

/-- Observed status of the unbounded per-record delete retry loop. -/
inductive RetryResult where
  /-- the try body succeeded on this attempt and the loop broke. -/
  | success (attempts : Nat)
  /-- an error/abort escape from the loop — the source body has none. -/
  | escalated
  /-- still inside the loop after the observed window, about to make this
  attempt. -/
  | retrying (attempts : Nat)
deriving Repr, DecidableEq

/-- The per-record delete retry loop (lines 205-217), observed for `fuel`
attempts starting at attempt `k`: on failure it only logs and loops. -/
def deleteRetryGo (outcome : Nat → Bool) (k : Nat) : Nat → RetryResult
  | 0 => RetryResult.retrying k
  | fuel + 1 =>
    if outcome k then RetryResult.success k
    else deleteRetryGo outcome (k + 1) fuel

/-- The delete retry loop observed over a window of attempts. -/
def deleteRetry (outcome : Nat → Bool) (window : Nat) : RetryResult :=
  deleteRetryGo outcome 1 window

lemma submitGo_exitError_iff (outcome : Nat → Bool) :
    ∀ (fuel a : Nat), a + fuel = 12 →
      (submitGo outcome a fuel = SubmitResult.exitError ↔
        ∀ k, a < k → k ≤ 12 → outcome k = false) := by
  intro fuel
  induction fuel with
  | zero =>
    intro a ha
    constructor
    · intro _ k hk1 hk2
      exact ((by omega : False)).elim
    · intro _
      rfl
  | succ fuel ih =>
    intro a ha
    rw [submitGo]
    by_cases h1 : outcome (a + 1) = true
    · rw [if_pos h1]
      constructor
      · intro hcontra
        cases hcontra
      · intro hall
        have hf := hall (a + 1) (by omega) (by omega)
        rw [h1] at hf
        cases hf
    · rw [if_neg h1]
      have h1f : outcome (a + 1) = false := by
        cases ho : outcome (a + 1)
        · rfl
        · exact absurd ho h1
      by_cases h2 : a + 1 ≥ 12
      · rw [if_pos h2]
        constructor
        · intro _ k hk1 hk2
          have hk : k = a + 1 := by omega
          rw [hk]
          exact h1f
        · intro _
          rfl
      · rw [if_neg h2]
        rw [ih (a + 1) (by omega)]
        constructor
        · intro hall k hk1 hk2
          by_cases hk : k = a + 1
          · rw [hk]
            exact h1f
          · exact hall k (by omega) hk2
        · intro hall k hk1 hk2
          exact hall k (by omega) hk2

lemma submitGo_success_bounds (outcome : Nat → Bool) :
    ∀ (fuel a k : Nat), submitGo outcome a fuel = SubmitResult.success k →
      a < k ∧ k ≤ a + fuel ∧ outcome k = true := by
  intro fuel
  induction fuel with
  | zero =>
    intro a k h
    cases h
  | succ fuel ih =>
    intro a k h
    rw [submitGo] at h
    by_cases h1 : outcome (a + 1) = true
    · rw [if_pos h1] at h
      cases h
      exact ⟨by omega, by omega, h1⟩
    · rw [if_neg h1] at h
      by_cases h2 : a + 1 ≥ 12
      · rw [if_pos h2] at h
        cases h
      · rw [if_neg h2] at h
        obtain ⟨b1, b2, b3⟩ := ih (a + 1) k h
        exact ⟨by omega, by omega, b3⟩

lemma deleteRetryGo_ne_escalated (outcome : Nat → Bool) :
    ∀ (fuel k : Nat), deleteRetryGo outcome k fuel ≠ RetryResult.escalated := by
  intro fuel
  induction fuel with
  | zero =>
    intro k h
    cases h
  | succ fuel ih =>
    intro k h
    rw [deleteRetryGo] at h
    by_cases h1 : outcome k = true
    · rw [if_pos h1] at h
      cases h
    · rw [if_neg h1] at h
      exact ih (k + 1) h

lemma deleteRetryGo_all_fail (outcome : Nat → Bool)
    (hall : ∀ k, outcome k = false) :
    ∀ (fuel k : Nat),
      deleteRetryGo outcome k fuel = RetryResult.retrying (k + fuel) := by
  intro fuel
  induction fuel with
  | zero =>
    intro k
    rfl
  | succ fuel ih =>
    intro k
    rw [deleteRetryGo, if_neg (by rw [hall k]; exact Bool.false_ne_true)]
    rw [ih (k + 1)]
    congr 1
    omega

/-- C8: the login/consent submit action is the only capped retry — it is
attempted at most 12 times, the loop returns the error exit code exactly
when all of attempts 1-12 fail, and any success happens on some attempt
between 1 and 12; the per-record delete retry, in contrast, has no
escalation outcome at all, and when every attempt fails it is still
retrying after any finite window of attempts. -/
theorem C8_retry_policy (outcome oc : Nat → Bool) (window : Nat) :
    (submitLoop outcome = SubmitResult.exitError ↔
      ∀ k, 1 ≤ k → k ≤ 12 → outcome k = false)
    ∧ (∀ k, submitLoop outcome = SubmitResult.success k →
        1 ≤ k ∧ k ≤ 12 ∧ outcome k = true)
    ∧ deleteRetry oc window ≠ RetryResult.escalated
    ∧ ((∀ k, oc k = false) →
        deleteRetry oc window = RetryResult.retrying (window + 1)) := by
  refine ⟨?_, ?_, ?_, ?_⟩
  · have h := submitGo_exitError_iff outcome 12 0 rfl
    unfold submitLoop
    rw [h]
    constructor
    · intro hall k hk1 hk2
      exact hall k (by omega) hk2
    · intro hall k hk1 hk2
      exact hall k (by omega) hk2
  · intro k h
    obtain ⟨b1, b2, b3⟩ := submitGo_success_bounds outcome 12 0 k h
    exact ⟨by omega, by omega, b3⟩
  · exact deleteRetryGo_ne_escalated oc window 1
  · intro hall
    unfold deleteRetry
    rw [deleteRetryGo_all_fail oc hall window 1]
    congr 1
    omega

/-- C8 witness: with every attempt failing, the submit loop exits with the
error code, and the delete retry loop is still retrying after a window of
five failed attempts. -/
theorem C8_retry_policy_witness :
    submitLoop (fun _ => false) = SubmitResult.exitError
    ∧ deleteRetry (fun _ => false) 5 = RetryResult.retrying 6 := by
  have h := C8_retry_policy (fun _ => false) (fun _ => false) 5
  exact ⟨h.1.mpr (fun _ _ _ => rfl), h.2.2.2 (fun _ => rfl)⟩

/-! ## Empty filter sets (C9) -/

lemma should_delete_empty_sets (cfg : UnscrobblerConfig)
    (h1 : cfg.delete_artists = []) (h2 : cfg.delete_titles = [])
    (t a : String) (hr yr : Int) : should_delete cfg t a hr yr = false :=
  should_delete_of_no_match cfg t a hr yr
    (by rw [h1]; exact List.not_mem_nil a)
    (by rw [h2]; exact List.not_mem_nil t)

lemma to_delete_exists_empty_sets (cfg : UnscrobblerConfig)
    (h1 : cfg.delete_artists = []) (h2 : cfg.delete_titles = [])
    (v : PageView) : to_delete_exists cfg v = false := by
  unfold to_delete_exists
  simp [shouldDeleteRec, should_delete_empty_sets cfg h1 h2]

lemma pageLoop_empty_sets (cfg : UnscrobblerConfig)
    (h1 : cfg.delete_artists = []) (h2 : cfg.delete_titles = [])
    (vs : List PageView) (st : RunState) : pageLoop cfg st vs = st := by
  cases vs with
  | nil => rfl
  | cons v vs =>
    rw [pageLoop, to_delete_exists_empty_sets cfg h1 h2 v]
    simp

lemma pagesRun_empty_sets (cfg : UnscrobblerConfig)
    (h1 : cfg.delete_artists = []) (h2 : cfg.delete_titles = [])
    (ps : List (List PageView)) (st : RunState) : pagesRun cfg st ps = st := by
  induction ps generalizing st with
  | nil => rfl
  | cons p ps ih =>
    rw [pagesRun]
    split
    · rw [pageLoop_empty_sets cfg h1 h2 p st]
      exact ih st
    · rfl

/-- C9: if both filter sets are empty, `should_delete` is false for every
record whatever the year / hour configuration, and any run leaves the
state untouched — zero deletions, empty log, no driver mutations. -/
theorem C9_empty_sets_no_deletions (cfg : UnscrobblerConfig)
    (h1 : cfg.delete_artists = []) (h2 : cfg.delete_titles = []) :
    (∀ (t a : String) (hr yr : Int), should_delete cfg t a hr yr = false)
    ∧ ∀ ps, pagesRun cfg initState ps = initState := by
  exact ⟨should_delete_empty_sets cfg h1 h2,
    fun ps => pagesRun_empty_sets cfg h1 h2 ps initState⟩

/-- C9 witness: the empty-set configuration on a concrete record and a
concrete one-page fixture. -/
theorem C9_empty_sets_no_deletions_witness :
    should_delete ⟨false, [], [], 100, some 2020, some 22, some 2⟩
      "T1" "A" 10 2021 = false
    ∧ pagesRun ⟨false, [], [], 100, some 2020, some 22, some 2⟩
        initState [[[[⟨"T1", "A", 10, 2021, "ts1", "p1"⟩]]]] = initState := by
  have h := C9_empty_sets_no_deletions
    ⟨false, [], [], 100, some 2020, some 22, some 2⟩ rfl rfl
  exact ⟨h.1 "T1" "A" 10 2021, h.2 [[[[⟨"T1", "A", 10, 2021, "ts1", "p1"⟩]]]]⟩
